import Mathlib

/-!
Verification development for the mascord memory core: the message cache
(src/cache.rs), the hybrid keyword/vector retriever (src/db/mod.rs) and the
summarization engine (src/summarize.rs), shallowly embedded in Lean.

Modelling conventions:
* Rust `String`/`&str` values are Lean `String`s; character-level work happens
  on `String.data` (a `List Char`).  The handful of character classes involved
  (whitespace, ASCII digits, ASCII letters) are modelled over the ASCII range,
  which is the range the stored timestamps, prompts and SQL text actually use.
* SQLite compares `TEXT` values by byte order; on the ASCII strings involved
  this coincides with the lexicographic order on `List Char`, which is the
  order used here.
* `f32` arithmetic is idealised over `ℚ`.  Stored embedding blobs are byte
  lists; finite IEEE-754 single-precision values are decoded exactly into `ℚ`
  (every finite float is a rational).  `fsqrt` is the rational square root,
  exact on perfect squares, which covers every concrete vector scored in this
  file; IEEE specials (NaN/Inf) are outside the model and decode to 0.
* Database timestamps use the `"%Y-%m-%d %H:%M:%S"` format of the source;
  parsing and formatting are implemented against the proleptic Gregorian
  calendar (days-from-civil algorithm), with instants as seconds since the
  Unix epoch (`Int`).  The date library's leap-second quirk (`:60`) is outside
  the model.
-/

/-! ### Character and string helpers -/

/-- ASCII whitespace, the fragment of Rust's `char::is_whitespace` exercised by
the strings this code handles. -/
def isWs (c : Char) : Bool :=
  c = ' ' ∨ c = '\t' ∨ c = '\n' ∨ c = '\r'

/-- `str::trim_start` at character-list level. -/
def trimLeftL (l : List Char) : List Char := l.dropWhile isWs

/-- `str::trim_end` at character-list level. -/
def trimRightL (l : List Char) : List Char := (l.reverse.dropWhile isWs).reverse

/-- `str::trim` at character-list level. -/
def trimL (l : List Char) : List Char := trimLeftL (trimRightL l)

/-- `str::trim` on strings. -/
def trimS (s : String) : String := ⟨trimL s.data⟩

/-- ASCII lower-casing of one character (`char::to_ascii_lowercase`). -/
def asciiLower (c : Char) : Char :=
  if 'A' ≤ c ∧ c ≤ 'Z' then Char.ofNat (c.toNat + 32) else c

/-- ASCII lower-casing of a string; models `str::to_lowercase` on the ASCII
fragment actually stored. -/
def lowerS (s : String) : String := ⟨s.data.map asciiLower⟩

/-- `str::eq_ignore_ascii_case`. -/
def eqIgnoreAsciiCase (a b : String) : Bool :=
  a.data.map asciiLower = b.data.map asciiLower

/-- Byte order on stored SQLite `TEXT` values (ASCII ⇒ lexicographic). -/
def strLe (a b : String) : Bool := a.data ≤ b.data

/-- Strict byte order on stored SQLite `TEXT` values. -/
def strLt (a b : String) : Bool := a.data < b.data

/-- Split a character list at a separator character (every occurrence). -/
def splitOnChar (sep : Char) : List Char → List (List Char)
  | [] => [[]]
  | c :: rest =>
    let r := splitOnChar sep rest
    if c = sep then [] :: r
    else
      match r with
      | [] => [[c]]
      | seg :: segs => (c :: seg) :: segs

/-- The line decomposition used by `str::lines` (`\n`-separated; a trailing
empty segment, and `\r` remnants, are neutralised by the callers' trimming,
matching the source's behaviour on the strings involved). -/
def linesOf (s : String) : List String :=
  (splitOnChar '\n' s.data).map (fun l => (⟨l⟩ : String))

/-! ### Timestamps: `"%Y-%m-%d %H:%M:%S"` ↔ Unix seconds -/

/-- Proleptic Gregorian leap year. -/
def isLeapYear (y : Nat) : Bool :=
  y % 4 = 0 ∧ (y % 100 ≠ 0 ∨ y % 400 = 0)

/-- Days in a month of the proleptic Gregorian calendar. -/
def daysInMonth (y m : Nat) : Nat :=
  if m = 2 then (if isLeapYear y then 29 else 28)
  else if m = 4 ∨ m = 6 ∨ m = 9 ∨ m = 11 then 30
  else 31

/-- Days since 1970-01-01 of a civil date (days-from-civil algorithm). -/
def daysFromCivil (y m d : Nat) : Int :=
  let yy : Int := (y : Int) - (if m ≤ 2 then 1 else 0)
  let era : Int := Int.fdiv yy 400
  let yoe : Int := yy - era * 400
  let mp : Int := (if 2 < m then (m : Int) - 3 else (m : Int) + 9)
  let doy : Int := Int.fdiv (153 * mp + 2) 5 + (d : Int) - 1
  let doe : Int := yoe * 365 + Int.fdiv yoe 4 - Int.fdiv yoe 100 + doy
  era * 146097 + doe - 719468

/-- Digit value of an ASCII digit character. -/
def digitVal (c : Char) : Nat := c.toNat - 48

/-- Parse `"%Y-%m-%d %H:%M:%S"` into Unix seconds, validating ranges the way
`NaiveDateTime::parse_from_str` does (the whole string must be consumed). -/
def parse_sqlite_utc (s : String) : Option Int :=
  match s.data with
  | [y1, y2, y3, y4, '-', m1, m2, '-', d1, d2, ' ', h1, h2, ':', n1, n2, ':', s1, s2] =>
    if ([y1, y2, y3, y4, m1, m2, d1, d2, h1, h2, n1, n2, s1, s2].all Char.isDigit) then
      let y := 1000 * digitVal y1 + 100 * digitVal y2 + 10 * digitVal y3 + digitVal y4
      let mo := 10 * digitVal m1 + digitVal m2
      let da := 10 * digitVal d1 + digitVal d2
      let ho := 10 * digitVal h1 + digitVal h2
      let mi := 10 * digitVal n1 + digitVal n2
      let se := 10 * digitVal s1 + digitVal s2
      if 1 ≤ mo ∧ mo ≤ 12 ∧ 1 ≤ da ∧ da ≤ daysInMonth y mo ∧ ho ≤ 23 ∧ mi ≤ 59 ∧ se ≤ 59 then
        some (daysFromCivil y mo da * 86400 + (ho * 3600 + mi * 60 + se : Nat))
      else none
    else none
  | _ => none

/-- Two-digit zero-padded decimal. -/
def pad2 (n : Nat) : List Char :=
  [Char.ofNat (48 + n / 10 % 10), Char.ofNat (48 + n % 10)]

/-- Four-digit zero-padded decimal. -/
def pad4 (n : Nat) : List Char :=
  [Char.ofNat (48 + n / 1000 % 10), Char.ofNat (48 + n / 100 % 10),
   Char.ofNat (48 + n / 10 % 10), Char.ofNat (48 + n % 10)]

/-- Civil date of a day count since 1970-01-01 (civil-from-days algorithm). -/
def civilFromDays (z0 : Int) : Int × Nat × Nat :=
  let z := z0 + 719468
  let era := Int.fdiv z 146097
  let doe := z - era * 146097
  let yoe := Int.fdiv (doe - Int.fdiv doe 1460 + Int.fdiv doe 36524 - Int.fdiv doe 146096) 365
  let y := yoe + era * 400
  let doy := doe - (365 * yoe + Int.fdiv yoe 4 - Int.fdiv yoe 100)
  let mp := Int.fdiv (5 * doy + 2) 153
  let d := doy - Int.fdiv (153 * mp + 2) 5 + 1
  let m := if mp < 10 then mp + 3 else mp - 9
  ((if m ≤ 2 then y + 1 else y), m.toNat, d.toNat)

/-- Format Unix seconds as `"%Y-%m-%d %H:%M:%S"` (chrono's `format`), for the
in-range years the system produces. -/
def formatTs (t : Int) : String :=
  let days := Int.fdiv t 86400
  let secs := (t - days * 86400).toNat
  let ymd := civilFromDays days
  ⟨pad4 ymd.1.toNat ++ '-' :: pad2 ymd.2.1 ++ '-' :: pad2 ymd.2.2 ++
    ' ' :: pad2 (secs / 3600) ++ ':' :: pad2 (secs / 60 % 60) ++ ':' :: pad2 (secs % 60)⟩

-- Calibration of the calendar arithmetic.
example : parse_sqlite_utc "1970-01-01 00:00:00" = some 0 := by decide
example : parse_sqlite_utc "2026-01-01 00:00:00" = some 1767225600 := by decide
example : formatTs 1767225600 = "2026-01-01 00:00:00" := by decide
example : formatTs 1767139200 = "2025-12-31 00:00:00" := by decide
example : parse_sqlite_utc "2024-02-29 12:00:00" = some 1709208000 := by decide
example : parse_sqlite_utc "2025-02-29 12:00:00" = none := by decide

/-! ### Rational stand-ins for the `f32` arithmetic -/

/-- Sum of squares (`iter().map(|x| x * x).sum()`). -/
def sumSq (v : List ℚ) : ℚ := (v.map (fun x => x * x)).sum

/-- Dot product of two equally long vectors. -/
def dotQ (a b : List ℚ) : ℚ := (List.zipWith (fun x y => x * y) a b).sum

/-- Rational square root: exact on perfect squares (the only inputs scored
concretely here); stands in for `f32::sqrt`. -/
def fsqrt (q : ℚ) : ℚ := (Int.sqrt q.num : ℚ) / (Nat.sqrt q.den : ℚ)

/-- Exact value of a finite IEEE-754 binary32 number given its four
little-endian bytes (`f32::from_le_bytes`); specials decode to 0, outside the
model. -/
def decodeF32 (b0 b1 b2 b3 : Nat) : ℚ :=
  let bits : Nat := b0 % 256 + 256 * (b1 % 256) + 65536 * (b2 % 256) + 16777216 * (b3 % 256)
  let sign : Nat := bits / 2 ^ 31
  let ex : Nat := bits / 2 ^ 23 % 256
  let frac : Nat := bits % 2 ^ 23
  if ex = 255 then 0
  else
    let mag : ℚ :=
      if ex = 0 then (frac : ℚ) * (2 : ℚ) ^ (-149 : ℤ)
      else ((2 ^ 23 + frac : Nat) : ℚ) * (2 : ℚ) ^ ((ex : ℤ) - 150)
    if sign = 1 then -mag else mag

/-- Decode a blob as consecutive 4-byte little-endian floats
(`chunks_exact(4)`: an incomplete trailing chunk is dropped). -/
def decodeF32List : List Nat → List ℚ
  | b0 :: b1 :: b2 :: b3 :: rest => decodeF32 b0 b1 b2 b3 :: decodeF32List rest
  | _ => []

example : decodeF32 0 0 128 63 = 1 := by norm_num [decodeF32]
example : decodeF32 0 0 0 0 = 0 := by norm_num [decodeF32]

/-! ### Data model of the retriever (src/rag/mod.rs, src/db/mod.rs) -/

/-- `crate::rag::MessageResult`: the row shape returned by both search paths. -/
structure MessageResult where
  content : String
  user_id : String
  timestamp : String
  channel_id : String
deriving DecidableEq, Repr

/-- `crate::rag::SearchFilter` (dates idealised as Unix seconds; the source
formats them to timestamp strings when building the SQL, mirrored below). -/
structure SearchFilter where
  channels : List String
  from_date : Option Int
  to_date : Option Int
  limit : Nat
deriving DecidableEq, Repr

/-- A row of the `messages` table (the columns the search paths read). -/
structure MsgRow where
  content : String
  user_id : String
  timestamp : String
  channel_id : String
  embedding : Option (List Nat)
deriving DecidableEq, Repr

/-- A row of the `channel_settings` table (the columns the search paths read;
`enabled` defaults to true and is never NULL in this schema). -/
structure ChannelSetting where
  enabled : Bool
  memory_start_date : Option String
deriving DecidableEq, Repr

/-- A row of the `channel_summaries` table. -/
structure SummaryRow where
  summary : String
  updated_at : String
  refreshed_at : String
deriving DecidableEq, Repr

/-- The persistent store: message log plus the per-channel settings and
summary tables (keyed maps modelled as functions). -/
structure DB where
  messages : List MsgRow
  settings : String → Option ChannelSetting
  summaries : String → Option SummaryRow

/-- Projection of a message row to the `SELECT`ed result columns. -/
def toResult (m : MsgRow) : MessageResult :=
  { content := m.content, user_id := m.user_id,
    timestamp := m.timestamp, channel_id := m.channel_id }

/-- The effective result limit: `if filter.limit == 0 { 5 } else { filter.limit.min(100) }`. -/
def effLimit (l : Nat) : Nat := if l = 0 then 5 else min l 100

/-! ### Hybrid search (src/db/mod.rs) -/

/-- `message_dedupe_key`: the composite key string used by the merge step. -/
def message_dedupe_key (m : MessageResult) : String :=
  m.channel_id ++ "|" ++ m.timestamp ++ "|" ++ m.user_id ++ "|" ++ m.content

/-- The loop body of `merge_results`: walk the concatenated results, keep the
first occurrence of each dedupe key, stop as soon as `limit` entries are
accumulated. -/
def mergeLoop (limit : Nat) : List String → List MessageResult → List MessageResult → List MessageResult
  | _, merged, [] => merged
  | seen, merged, m :: rest =>
    if message_dedupe_key m ∈ seen then mergeLoop limit seen merged rest
    else
      let merged2 := merged ++ [m]
      if limit ≤ merged2.length then merged2
      else mergeLoop limit (message_dedupe_key m :: seen) merged2 rest

/-- `merge_results`: dedup-merge of vector results before keyword results. -/
def merge_results (primary secondary : List MessageResult) (limit : Nat) : List MessageResult :=
  mergeLoop limit [] [] (primary ++ secondary)

/-- The channel-scope condition of the search SQL:
`(s.enabled IS NULL OR s.enabled = 1) AND (s.memory_start_date IS NULL OR m.timestamp >= s.memory_start_date)`
under the `LEFT JOIN` on the channel id. -/
def scope_ok (settings : String → Option ChannelSetting) (m : MsgRow) : Bool :=
  match settings m.channel_id with
  | none => true
  | some s =>
    s.enabled &&
      (match s.memory_start_date with
       | none => true
       | some d => strLe d m.timestamp)

/-- One step of SQLite `LIKE` matching (ASCII-case-insensitive; `%` matches any
sequence, `_` any single character).  The fuel argument strictly exceeds the
recursion depth: every step shortens the pattern or the text. -/
def likeMatchGo : Nat → List Char → List Char → Bool
  | 0, _, _ => false
  | _ + 1, [], [] => true
  | _ + 1, [], _ :: _ => false
  | f + 1, '%' :: ps, t =>
    likeMatchGo f ps t ||
      (match t with
       | [] => false
       | _ :: ts => likeMatchGo f ('%' :: ps) ts)
  | f + 1, '_' :: ps, t =>
    (match t with
     | [] => false
     | _ :: ts => likeMatchGo f ps ts)
  | f + 1, p :: ps, t =>
    (match t with
     | [] => false
     | c :: ts => asciiLower p = asciiLower c && likeMatchGo f ps ts)

/-- SQLite `LIKE` with the default (ASCII-case-insensitive) collation. -/
def likeMatch (pat txt : List Char) : Bool :=
  likeMatchGo (pat.length + txt.length + 1) pat txt

example : likeMatch ('%' :: ("hello".data) ++ ['%']) ("say HELLO world".data) = true := by decide
example : likeMatch ('%' :: ("hello".data) ++ ['%']) ("goodbye".data) = false := by decide
example : likeMatch ("a%b".data) ("axxb".data) = true := by decide
example : likeMatch ("a_c".data) ("abc".data) = true := by decide

/-- The `WHERE` clause of `search_messages_keyword` as assembled by the source
(the `LIKE`, channel-list and date clauses are only added when present). -/
def keyword_where (settings : String → Option ChannelSetting) (query : String)
    (filter : SearchFilter) (m : MsgRow) : Bool :=
  scope_ok settings m &&
    (query = "" || likeMatch ('%' :: query.data ++ ['%']) m.content.data) &&
    (filter.channels = [] || decide (m.channel_id ∈ filter.channels)) &&
    (match filter.from_date with
     | none => true
     | some f => strLe (formatTs f) m.timestamp) &&
    (match filter.to_date with
     | none => true
     | some t => strLe m.timestamp (formatTs t))

/-- `ORDER BY m.timestamp DESC` as a sort relation on rows. -/
def ts_desc (a b : MsgRow) : Prop := b.timestamp.data ≤ a.timestamp.data

instance : DecidableRel ts_desc := fun a b =>
  inferInstanceAs (Decidable (b.timestamp.data ≤ a.timestamp.data))

instance : IsTotal MsgRow ts_desc := ⟨fun a b => le_total b.timestamp.data a.timestamp.data⟩

instance : IsTrans MsgRow ts_desc := ⟨fun _ _ _ h1 h2 => le_trans h2 h1⟩

/-- `Database::search_messages_keyword`. -/
def search_messages_keyword (db : DB) (query : String) (filter : SearchFilter) : List MessageResult :=
  (((db.messages.filter (keyword_where db.settings query filter)).insertionSort ts_desc).take
      (effLimit filter.limit)).map toResult

/-- `recency_boost`: multiplicative boost decaying linearly over a 30-day
window, maximum 5 % (the source's `RECENCY_MAX_BOOST = 0.05` idealised as
`1/20`). -/
def recency_boost (timestamp : String) (now : Int) : ℚ :=
  match parse_sqlite_utc timestamp with
  | none => 1
  | some ts =>
    let age_secs : ℚ := ((max (now - ts) 0 : Int) : ℚ)
    let age_days : ℚ := age_secs / 86400
    if (30 : ℚ) ≤ age_days then 1
    else 1 + (1 / 20) * (1 - age_days / 30)

/-- `cosine_similarity_bytes`: cosine of the query vector against a stored
little-endian float blob, with the source's guards (empty or zero-norm query,
length mismatch, zero candidate norm all score 0). -/
def cosine_similarity_bytes (query : List ℚ) (query_norm : ℚ) (candidate_bytes : List Nat) : ℚ :=
  if query = [] ∨ query_norm = 0 then 0
  else if candidate_bytes.length ≠ 4 * query.length then 0
  else
    let cand := decodeF32List candidate_bytes
    let dot := dotQ query cand
    let norm_b := fsqrt (sumSq cand)
    if norm_b = 0 then 0 else dot / (query_norm * norm_b)

/-- The `WHERE` clause of `search_messages_vector` (scope, non-null embedding,
optional channel list and date bounds). -/
def vector_where (settings : String → Option ChannelSetting) (filter : SearchFilter)
    (m : MsgRow) : Bool :=
  scope_ok settings m &&
    m.embedding.isSome &&
    (filter.channels = [] || decide (m.channel_id ∈ filter.channels)) &&
    (match filter.from_date with
     | none => true
     | some f => strLe (formatTs f) m.timestamp) &&
    (match filter.to_date with
     | none => true
     | some t => strLe m.timestamp (formatTs t))

/-- The candidate window of the vector path: the newest eligible rows, capped
at `MAX_CANDIDATES = 5000`. -/
def vector_candidates (db : DB) (filter : SearchFilter) : List MsgRow :=
  ((db.messages.filter (vector_where db.settings filter)).insertionSort ts_desc).take 5000

/-- The per-candidate scoring of the vector path: clamp negative cosine to 0,
then apply the recency boost to positive scores. -/
def scoreCandidate (query : List ℚ) (query_norm : ℚ) (now : Int) (m : MsgRow) : ℚ :=
  let s := cosine_similarity_bytes query query_norm (m.embedding.getD [])
  let s := if s < 0 then 0 else s
  if 0 < s then s * recency_boost m.timestamp now else s

/-- The scored candidate list of `search_messages_vector`. -/
def vectorScored (db : DB) (query : List ℚ) (now : Int) (filter : SearchFilter) :
    List (ℚ × MsgRow) :=
  (vector_candidates db filter).map
    (fun m => (scoreCandidate query (fsqrt (sumSq query)) now m, m))

/-- `sort_by(|a, b| b.0.partial_cmp(&a.0) ...)`: descending final score. -/
def score_desc (a b : ℚ × MsgRow) : Prop := b.1 ≤ a.1

instance : DecidableRel score_desc := fun a b => inferInstanceAs (Decidable (b.1 ≤ a.1))

instance : IsTotal (ℚ × MsgRow) score_desc := ⟨fun a b => le_total b.1 a.1⟩

instance : IsTrans (ℚ × MsgRow) score_desc := ⟨fun _ _ _ h1 h2 => le_trans h2 h1⟩

/-- `Database::search_messages_vector`. -/
def search_messages_vector (db : DB) (query_embedding : List ℚ) (now : Int)
    (filter : SearchFilter) : List MessageResult :=
  if fsqrt (sumSq query_embedding) = 0 then []
  else
    ((((vectorScored db query_embedding now filter).insertionSort score_desc).take
        (effLimit filter.limit)).map (fun p => toResult p.2))

/-- `Database::search_messages`: keyword-only when the query embedding is
empty, otherwise the dedup-merge of the vector results before the keyword
results (keyword search skipped for a blank query). -/
def search_messages (db : DB) (now : Int) (query : String) (embedding : List ℚ)
    (filter : SearchFilter) : List MessageResult :=
  let lim := effLimit filter.limit
  let f : SearchFilter := { filter with limit := lim }
  if embedding = [] then search_messages_keyword db query f
  else
    let vector_results := search_messages_vector db embedding now f
    let keyword_results :=
      if trimS query = "" then [] else search_messages_keyword db query f
    merge_results vector_results keyword_results lim

/-- `Database::count_channel_messages_since` (`timestamp > since`, text
comparison, no scope filter). -/
def count_channel_messages_since (db : DB) (channel_id since : String) : Nat :=
  (db.messages.filter (fun m => decide (m.channel_id = channel_id) && strLt since m.timestamp)).length

/-! ### Summary and milestone persistence (src/db/mod.rs) -/

/-- The `channel_summaries` table as a keyed map. -/
def SummaryTable := String → Option SummaryRow

/-- `Database::save_summary`: upsert the summary text and `updated_at`;
`refreshed_at` is untouched on update and takes the column default (the same
transaction timestamp) on first insert. -/
def save_summary (tbl : SummaryTable) (channel_id summary now : String) : SummaryTable :=
  fun ch =>
    if ch = channel_id then
      match tbl channel_id with
      | some r => some { summary := summary, updated_at := now, refreshed_at := r.refreshed_at }
      | none => some { summary := summary, updated_at := now, refreshed_at := now }
    else tbl ch

/-- `Database::save_summary_refresh`: upsert advancing both `updated_at` and
`refreshed_at`. -/
def save_summary_refresh (tbl : SummaryTable) (channel_id summary now : String) : SummaryTable :=
  fun ch =>
    if ch = channel_id then
      some { summary := summary, updated_at := now, refreshed_at := now }
    else tbl ch

/-- The `channel_milestones` table, as the per-channel milestone list in
insertion order. -/
def MilestoneTable := String → List String

/-- `Database::replace_channel_milestones`: transactionally delete the
channel's rows and insert the trimmed, non-empty entries of the new list. -/
def replace_channel_milestones (tbl : MilestoneTable) (channel_id : String)
    (milestones : List String) : MilestoneTable :=
  fun ch =>
    if ch = channel_id then
      (milestones.map trimS).filter (fun t => ¬ (t = ""))
    else tbl ch

/-! ### Summarization engine (src/summarize.rs) -/

/-- The summarization policy knobs read from configuration. -/
structure SummarizationPolicy where
  initial_min_messages : Nat
  trigger_new_messages : Nat
  trigger_age_hours : Int
  trigger_min_new_messages : Nat
  refresh_weeks : Int
deriving DecidableEq, Repr

/-- `strip_numbered_prefix`-style parsing of a `N.`/`N)` numbered line: leading
digits, a dot or closing parenthesis, then the non-empty remainder. -/
def stripNumberedMarker (line : String) : Option String :=
  if ((line.data.dropWhile isWs).takeWhile Char.isDigit) = [] then none
  else
    match ((line.data.dropWhile isWs).drop
        ((line.data.dropWhile isWs).takeWhile Char.isDigit).length).dropWhile isWs with
    | '.' :: r => if r.dropWhile isWs = [] then none else some ⟨r.dropWhile isWs⟩
    | ')' :: r => if r.dropWhile isWs = [] then none else some ⟨r.dropWhile isWs⟩
    | _ => none

/-- Extract the milestone text of one (already trimmed) line: a `- ` or `* `
bullet, or a numbered marker. -/
def milestoneItemOf (line : String) : Option String :=
  match line.data with
  | '-' :: ' ' :: rest => some (trimS ⟨rest⟩)
  | '*' :: ' ' :: rest => some (trimS ⟨rest⟩)
  | _ => stripNumberedMarker line

/-- The line loop of `parse_milestones`: skip blank lines, stop at a
(case-insensitive) `None` line — clearing the result if nothing was collected
yet — and otherwise collect case-insensitively deduplicated items up to the
cap. -/
def parseMilestonesLoop (max : Nat) : List String → List String → List String → List String
  | _, out, [] => out
  | seen, out, l :: rest =>
    let line := trimS l
    if line = "" then parseMilestonesLoop max seen out rest
    else if eqIgnoreAsciiCase line "none" then (if out = [] then [] else out)
    else
      match milestoneItemOf line with
      | none => parseMilestonesLoop max seen out rest
      | some item =>
        if item = "" then parseMilestonesLoop max seen out rest
        else if lowerS item ∈ seen then parseMilestonesLoop max seen out rest
        else
          let out2 := out ++ [item]
          if max ≤ out2.length then out2
          else parseMilestonesLoop max (lowerS item :: seen) out2 rest

/-- `parse_milestones`. -/
def parse_milestones (raw : String) (max : Nat) : List String :=
  parseMilestonesLoop max [] [] (linesOf raw)

example :
    parse_milestones "MILESTONES:\n- Decision A\n1. Constraint B\n* Ongoing thread\nNone" 5
      = ["Decision A", "Constraint B", "Ongoing thread"] := by decide
example : parse_milestones "None" 6 = [] := by decide
example : parse_milestones "chatter without markers" 6 = [] := by decide

/-- The milestone-persistence step at the end of
`SummarizationManager::summarize_channel`: parse the model's milestone
response (cap 6) and replace the channel's stored set only when the extracted
set is non-empty. -/
def summarize_persist_milestones (tbl : MilestoneTable) (channel_id raw : String) :
    MilestoneTable :=
  let milestones := parse_milestones raw 6
  if milestones = [] then tbl
  else replace_channel_milestones tbl channel_id milestones

/-- The compression prompt of `enforce_summary_cap`. -/
def compression_prompt (max_tokens : Nat) (current : String) : String :=
  "Condense the following channel summary to be under " ++ toString max_tokens ++
    " tokens. Keep it accurate and preserve key decisions, constraints, and ongoing threads.\n\nSUMMARY:\n"
    ++ current ++ "\n\nCONDENSED SUMMARY:"

/-- `SummarizationManager::enforce_summary_cap`, with the language-model
completion as an oracle `llm : prompt → response`; returns the accepted text
and the number of compression completions issued (the loop of at most two
passes, unrolled). -/
def enforce_summary_cap (llm : String → String) (summary : String) (max_tokens : Nat) :
    String × Nat :=
  if summary.length / 4 ≤ max_tokens then (summary, 0)
  else
    let c1 := llm (compression_prompt max_tokens summary)
    if c1.length / 4 ≤ max_tokens then (c1, 1)
    else (llm (compression_prompt max_tokens c1), 2)

/-- `SummarizationManager::should_summarize_channel` as a function of the
store, the policy and the current instant. -/
def should_summarize_channel (pol : SummarizationPolicy) (db : DB) (now : Int)
    (channel_id : String) : Bool :=
  let record := db.summaries channel_id
  let refresh_due :=
    match record with
    | none => false
    | some r =>
      match parse_sqlite_utc r.refreshed_at with
      | none => false
      | some ts => decide (pol.refresh_weeks * 604800 < now - ts)
  let updated_at := match record with | none => "" | some r => r.updated_at
  let new_messages :=
    if updated_at = "" then
      count_channel_messages_since db channel_id (formatTs (now - 86400))
    else count_channel_messages_since db channel_id updated_at
  match record with
  | none => decide (pol.initial_min_messages ≤ new_messages)
  | some r =>
    let summary_age_hours : Int :=
      match parse_sqlite_utc r.updated_at with
      | none => 999
      | some ts => (now - ts).tdiv 3600
    if refresh_due && decide (0 < new_messages) then true
    else
      decide (pol.trigger_new_messages ≤ new_messages) ||
        (decide (pol.trigger_age_hours ≤ summary_age_hours) &&
          decide (pol.trigger_min_new_messages ≤ new_messages))

/-! ### Message cache (src/cache.rs) -/

/-- The cache's view of a message (the serenity fields it reads: the id —
stringified on insertion — the channel, and the payload). -/
structure Msg where
  id : String
  channel_id : Nat
  content : String
deriving DecidableEq, Repr

/-- A functional LRU cache: entries most-recent-first, bounded by `cap`. -/
structure LruCache where
  entries : List (String × Msg)
  cap : Nat
deriving DecidableEq, Repr

/-- `LruCache::put`: insert or update at most-recent position, evicting the
least-recently-used entry when the capacity is exceeded. -/
def lru_put (c : LruCache) (k : String) (v : Msg) : LruCache :=
  { c with entries := ((k, v) :: c.entries.filter (fun e => ¬ (e.1 = k))).take c.cap }

/-- `LruCache::peek`: lookup without touching recency. -/
def lru_peek (c : LruCache) (k : String) : Option Msg :=
  (c.entries.find? (fun e => decide (e.1 = k))).map (fun e => e.2)

/-- `LruCache::get`: lookup promoting the entry to most-recent. -/
def lru_get (c : LruCache) (k : String) : Option Msg × LruCache :=
  match c.entries.find? (fun e => decide (e.1 = k)) with
  | none => (none, c)
  | some e => (some e.2, { c with entries := e :: c.entries.filter (fun x => ¬ (x.1 = k)) })

/-- The `while channel_msgs.len() > bound { pop_front }` trim loop of
`MessageCache::insert`. -/
def trimQueue (bound : Nat) : List String → List String
  | [] => []
  | x :: t => if bound < (x :: t).length then trimQueue bound t else x :: t

/-- `MessageCache`: primary LRU store, per-channel id queues (oldest first),
and the constructor-supplied capacity. -/
structure MessageCache where
  cache : LruCache
  channel_index : Nat → List String
  capacity : Nat

/-- `MessageCache::new`: a zero capacity falls back to a primary LRU capacity
of 100, but the `capacity` field keeps the raw value. -/
def MessageCache.new (capacity : Nat) : MessageCache :=
  { cache := { entries := [], cap := if capacity = 0 then 100 else capacity },
    channel_index := fun _ => [],
    capacity := capacity }

/-- `MessageCache::insert`: put into the LRU store, append the id to the
channel's queue, and trim the queue to twice the stored capacity. -/
def MessageCache.insert (mc : MessageCache) (m : Msg) : MessageCache :=
  let message_id := m.id
  let q := trimQueue (mc.capacity * 2) (mc.channel_index m.channel_id ++ [message_id])
  { cache := lru_put mc.cache message_id m,
    channel_index := fun ch => if ch = m.channel_id then q else mc.channel_index ch,
    capacity := mc.capacity }

/-- `MessageCache::get` (recency-promoting read). -/
def MessageCache.get (mc : MessageCache) (message_id : String) : Option Msg :=
  (lru_get mc.cache message_id).1

/-- `MessageCache::get_channel_history`: resolve the last `limit` ids of the
channel queue against the store with non-promoting peeks, skipping evicted
ids, oldest first. -/
def MessageCache.get_channel_history (mc : MessageCache) (channel_id : Nat) (limit : Nat) :
    List Msg :=
  ((((mc.channel_index channel_id).reverse.take limit).filterMap (lru_peek mc.cache)).reverse)

example :
    (MessageCache.get_channel_history
      (((MessageCache.new 100).insert ⟨"1", 100, "a"⟩).insert ⟨"2", 100, "b"⟩) 100 10).map Msg.id
      = ["1", "2"] := by decide

/-! ### Spec-side definitions (for refinement comparisons) -/

/-- First-seen deduplication by the composite key, as the specification
describes the merge: keep each first occurrence, removing every later element
with an already-seen key. -/
def dedupKeyed : List MessageResult → List MessageResult
  | [] => []
  | x :: xs =>
    x :: dedupKeyed (xs.filter (fun y => ¬ (message_dedupe_key y = message_dedupe_key x)))
termination_by l => l.length
decreasing_by
  simp only [List.length_cons]
  exact Nat.lt_succ_of_le (List.length_filter_le _ _)

/-- Case-sensitive substring containment, following the specification's words
for the keyword match ("content contains the query text as a substring"). -/
def specContainsSubstring (needle haystack : String) : Prop :=
  needle.data <:+: haystack.data

/-! ### Auxiliary lemmas: trimming -/

theorem dropWhile_idem (p : Char → Bool) (l : List Char) :
    (l.dropWhile p).dropWhile p = l.dropWhile p := by
  induction l with
  | nil => rfl
  | cons c t ih =>
    by_cases h : p c
    · simp [List.dropWhile, h, ih]
    · simp [List.dropWhile, h]

theorem prefix_no_leading (p : Char → Bool) (r v : List Char)
    (hpre : r <+: v) (hv : v.dropWhile p = v) : r.dropWhile p = r := by
  cases r with
  | nil => rfl
  | cons c t =>
    cases v with
    | nil => simp at hpre
    | cons c2 t2 =>
      have hc : c = c2 := by
        rcases hpre with ⟨rest, hrest⟩
        have h2 := congrArg List.head? hrest
        simp at h2
        exact h2
      subst hc
      by_cases h : p c
      · rw [List.dropWhile_cons_of_pos (by simpa using h)] at hv
        have hlen := congrArg List.length hv
        have hle : (t2.dropWhile p).length ≤ t2.length := by
          simpa using List.Sublist.length_le (List.dropWhile_sublist (p := p) (l := t2))
        simp at hlen
        omega
      · simp [List.dropWhile, h]

theorem suffix_no_trailing (p : Char → Bool) (r v : List Char)
    (hs : r <:+ v) (hv : v.reverse.dropWhile p = v.reverse) :
    r.reverse.dropWhile p = r.reverse :=
  prefix_no_leading p r.reverse v.reverse (List.reverse_prefix.mpr hs) hv

theorem trimRightL_no_trailing (l : List Char) :
    (trimRightL l).reverse.dropWhile isWs = (trimRightL l).reverse := by
  simp [trimRightL, dropWhile_idem]

theorem trimL_no_leading (l : List Char) : (trimL l).dropWhile isWs = trimL l := by
  simp [trimL, trimLeftL, dropWhile_idem]

theorem trimL_no_trailing (l : List Char) :
    (trimL l).reverse.dropWhile isWs = (trimL l).reverse := by
  have hsuffix : trimL l <:+ trimRightL l := by
    simpa [trimL, trimLeftL] using List.dropWhile_suffix (l := trimRightL l) isWs
  exact suffix_no_trailing isWs _ _ hsuffix (trimRightL_no_trailing l)

theorem trimL_of_clean (l : List Char) (h1 : l.dropWhile isWs = l)
    (h2 : l.reverse.dropWhile isWs = l.reverse) : trimL l = l := by
  have hr : trimRightL l = l := by
    simp [trimRightL, h2]
  simp [trimL, hr, trimLeftL, h1]

theorem trimL_idem (l : List Char) : trimL (trimL l) = trimL l :=
  trimL_of_clean _ (trimL_no_leading l) (trimL_no_trailing l)

theorem trimS_idem (s : String) : trimS (trimS s) = trimS s := by
  simp [trimS, trimL_idem]

theorem trimL_dropWhile_suffix (v r : List Char)
    (hv : v.reverse.dropWhile isWs = v.reverse) (hs : r <:+ v) :
    trimL (r.dropWhile isWs) = r.dropWhile isWs := by
  have hsfx : r.dropWhile isWs <:+ v := (List.dropWhile_suffix isWs).trans hs
  exact trimL_of_clean _ (dropWhile_idem isWs r)
    (suffix_no_trailing isWs _ _ hsfx hv)

/-! ### Auxiliary lemmas: milestone items are trimmed and non-empty -/

theorem stripNumberedMarker_clean (line item : String)
    (hclean : line.data = trimL line.data)
    (h : stripNumberedMarker line = some item) : trimS item = item := by
  have hv : line.data.reverse.dropWhile isWs = line.data.reverse := by
    rw [hclean]; exact trimL_no_trailing _
  unfold stripNumberedMarker at h
  split at h
  · exact absurd h (by simp)
  · split at h
    case h_1 r heq =>
      split at h
      · exact absurd h (by simp)
      · have hrs : r <:+ line.data := by
          have h1 : r <:+ ('.' :: r) := ⟨['.'], rfl⟩
          have h2 : ('.' :: r) <:+
              ((line.data.dropWhile isWs).drop
                ((line.data.dropWhile isWs).takeWhile Char.isDigit).length) :=
            heq ▸ List.dropWhile_suffix isWs
          exact h1.trans (h2.trans ((List.drop_suffix _ _).trans (List.dropWhile_suffix isWs)))
        have hinv := trimL_dropWhile_suffix line.data r hv hrs
        have hit := Option.some.inj h
        rw [← hit]
        simp [trimS, hinv]
    case h_2 r heq =>
      split at h
      · exact absurd h (by simp)
      · have hrs : r <:+ line.data := by
          have h1 : r <:+ (')' :: r) := ⟨[')'], rfl⟩
          have h2 : (')' :: r) <:+
              ((line.data.dropWhile isWs).drop
                ((line.data.dropWhile isWs).takeWhile Char.isDigit).length) :=
            heq ▸ List.dropWhile_suffix isWs
          exact h1.trans (h2.trans ((List.drop_suffix _ _).trans (List.dropWhile_suffix isWs)))
        have hinv := trimL_dropWhile_suffix line.data r hv hrs
        have hit := Option.some.inj h
        rw [← hit]
        simp [trimS, hinv]
    case h_3 => exact absurd h (by simp)

theorem milestoneItemOf_clean (line item : String)
    (hclean : line.data = trimL line.data)
    (h : milestoneItemOf line = some item) : trimS item = item := by
  unfold milestoneItemOf at h
  split at h
  · have hit := Option.some.inj h
    rw [← hit]; exact trimS_idem _
  · have hit := Option.some.inj h
    rw [← hit]; exact trimS_idem _
  · exact stripNumberedMarker_clean line item hclean h

theorem parseMilestonesLoop_items (max : Nat) :
    ∀ (lines seen out : List String),
      (∀ i ∈ out, trimS i = i ∧ i ≠ "") →
      ∀ i ∈ parseMilestonesLoop max seen out lines, trimS i = i ∧ i ≠ "" := by
  intro lines
  induction lines with
  | nil =>
    intro seen out hout i hi
    exact hout i (by simpa [parseMilestonesLoop] using hi)
  | cons l rest ih =>
    intro seen out hout i hi
    simp only [parseMilestonesLoop] at hi
    split at hi
    · exact ih _ _ hout i hi
    · split at hi
      · split at hi
        · simp at hi
        · exact hout i hi
      · split at hi
        · exact ih _ _ hout i hi
        · case _ item heqit =>
          split at hi
          · exact ih _ _ hout i hi
          · case _ hne =>
            split at hi
            · exact ih _ _ hout i hi
            · have hitem : trimS item = item :=
                milestoneItemOf_clean (trimS l) item (by simp [trimS, trimL_idem]) heqit
              have hout2 : ∀ j ∈ out ++ [item], trimS j = j ∧ j ≠ "" := by
                intro j hj
                rcases List.mem_append.mp hj with hj | hj
                · exact hout j hj
                · simp at hj; subst hj; exact ⟨hitem, hne⟩
              split at hi
              · exact hout2 i hi
              · exact ih _ _ hout2 i hi

theorem parse_milestones_items (raw : String) (max : Nat) :
    ∀ i ∈ parse_milestones raw max, trimS i = i ∧ i ≠ "" :=
  parseMilestonesLoop_items max (linesOf raw) [] [] (by simp)

theorem map_trim_filter_id :
    ∀ (ms : List String), (∀ i ∈ ms, trimS i = i ∧ i ≠ "") →
      (ms.map trimS).filter (fun t => ¬ (t = "")) = ms := by
  intro ms
  induction ms with
  | nil => intro _; rfl
  | cons a t ih =>
    intro h
    have ha := h a (by simp)
    have ht : ∀ i ∈ t, trimS i = i ∧ i ≠ "" := fun i hi => h i (by simp [hi])
    simp [List.filter, ha.1, ha.2]
    simpa using ih ht

/-! ### C1: milestone replacement after summarization -/

/-- C1 counterexample: a literal `None` extraction parses to the empty set, and
`summarize_channel`'s persistence step then leaves the previously stored
milestones in place — the channel does not end up with an empty milestone
set, contrary to the claim. -/
theorem milestone_empty_extraction_keeps_prior :
    parse_milestones "None" 6 = [] ∧
      summarize_persist_milestones
        (fun ch => if ch = "c1" then ["old milestone"] else []) "c1" "None" "c1"
        = ["old milestone"] ∧
      ¬ (["old milestone"] = ([] : List String)) := by
  refine ⟨by decide, ?_, by decide⟩
  simp [summarize_persist_milestones, show parse_milestones "None" 6 = [] from by decide]

/-- C1 (amended): after a summary is accepted, a non-empty extracted milestone
set replaces the channel's stored set exactly (prior entries removed, not
merged), and other channels are untouched; an extraction that yields the
empty set (a literal `None` response or no parseable lines) skips the
replacement and leaves the stored set unchanged. -/
theorem milestone_replacement_semantics (tbl : MilestoneTable) (channel_id raw : String) :
    (parse_milestones raw 6 ≠ [] →
      summarize_persist_milestones tbl channel_id raw channel_id = parse_milestones raw 6)
    ∧ (parse_milestones raw 6 = [] →
      summarize_persist_milestones tbl channel_id raw = tbl)
    ∧ (∀ ch, ch ≠ channel_id →
      summarize_persist_milestones tbl channel_id raw ch = tbl ch) := by
  refine ⟨?_, ?_, ?_⟩
  · intro hne
    simp only [summarize_persist_milestones, if_neg hne, replace_channel_milestones, if_pos rfl]
    exact map_trim_filter_id _ (parse_milestones_items raw 6)
  · intro he
    simp [summarize_persist_milestones, he]
  · intro ch hch
    by_cases he : parse_milestones raw 6 = []
    · simp [summarize_persist_milestones, he]
    · simp [summarize_persist_milestones, he, replace_channel_milestones, if_neg hch]

/-- C1 witness: the amended theorem applied at a concrete table and a concrete
bulleted response. -/
theorem milestone_replacement_semantics_witness :
    parse_milestones "- Decision A\n- Constraint B" 6 ≠ [] ∧
      summarize_persist_milestones (fun _ => ["stale"]) "c1" "- Decision A\n- Constraint B" "c1"
        = ["Decision A", "Constraint B"] := by
  refine ⟨by decide, ?_⟩
  have h := (milestone_replacement_semantics (fun _ => ["stale"]) "c1"
    "- Decision A\n- Constraint B").1 (by decide)
  rw [h]
  decide

/-! ### C7: token-budget enforcement -/

/-- C7: `enforce_summary_cap` approximates the token count as
`chars / 4`; a summary within the cap is accepted unchanged with zero
compression completions, otherwise at most two compression completions are
issued — the first is accepted if it fits, and whatever the second pass
returns is accepted regardless of its size. -/
theorem summary_cap_policy :
    (∀ (llm : String → String) (s : String) (cap : Nat),
      s.length / 4 ≤ cap → enforce_summary_cap llm s cap = (s, 0))
    ∧ (∀ (llm : String → String) (s : String) (cap : Nat),
      (enforce_summary_cap llm s cap).2 ≤ 2)
    ∧ (∀ (llm : String → String) (s : String) (cap : Nat),
      ¬ s.length / 4 ≤ cap →
        ((llm (compression_prompt cap s)).length / 4 ≤ cap →
          enforce_summary_cap llm s cap = (llm (compression_prompt cap s), 1))
        ∧ (¬ (llm (compression_prompt cap s)).length / 4 ≤ cap →
          enforce_summary_cap llm s cap
            = (llm (compression_prompt cap (llm (compression_prompt cap s))), 2))) := by
  refine ⟨?_, ?_, ?_⟩
  · intro llm s cap h
    simp [enforce_summary_cap, h]
  · intro llm s cap
    simp only [enforce_summary_cap]
    split
    · simp
    · split <;> simp
  · intro llm s cap h
    constructor
    · intro h1
      simp [enforce_summary_cap, h, h1]
    · intro h1
      simp [enforce_summary_cap, h, h1]

/-- C7 witness: a four-character summary under a cap of 5 is accepted as-is,
and an oversized summary with an incompressible oracle still stops after two
completions. -/
theorem summary_cap_policy_witness :
    ("abcd".length / 4 ≤ 5 ∧ enforce_summary_cap (fun _ => "x") "abcd" 5 = ("abcd", 0))
    ∧ (enforce_summary_cap (fun _ => "abcdefgh") "abcdefgh" 1).2 ≤ 2 := by
  exact ⟨⟨by decide, summary_cap_policy.1 (fun _ => "x") "abcd" 5 (by decide)⟩,
    summary_cap_policy.2.1 (fun _ => "abcdefgh") "abcdefgh" 1⟩

/-! ### C8: summary write timestamps -/

/-- C8: for a channel with an existing summary record, `save_summary` replaces
the summary text and `updated_at` while leaving `refreshed_at` unchanged,
whereas `save_summary_refresh` advances both; neither operation touches any
other channel's record. -/
theorem summary_write_timestamps (tbl : SummaryTable) (channel_id summary now : String)
    (r : SummaryRow) (h : tbl channel_id = some r) :
    save_summary tbl channel_id summary now channel_id
        = some { summary := summary, updated_at := now, refreshed_at := r.refreshed_at }
    ∧ save_summary_refresh tbl channel_id summary now channel_id
        = some { summary := summary, updated_at := now, refreshed_at := now }
    ∧ (∀ ch, ch ≠ channel_id →
        save_summary tbl channel_id summary now ch = tbl ch
        ∧ save_summary_refresh tbl channel_id summary now ch = tbl ch) := by
  refine ⟨?_, ?_, ?_⟩
  · simp [save_summary, h]
  · simp [save_summary_refresh]
  · intro ch hch
    exact ⟨by simp [save_summary, hch], by simp [save_summary_refresh, hch]⟩

/-- C8 witness: the theorem applied to a concrete one-record table. -/
theorem summary_write_timestamps_witness :
    (fun ch => if ch = "c1" then some (⟨"old", "t0", "r0"⟩ : SummaryRow) else none) "c1"
        = some (⟨"old", "t0", "r0"⟩ : SummaryRow)
    ∧ save_summary (fun ch => if ch = "c1" then some ⟨"old", "t0", "r0"⟩ else none)
        "c1" "new" "t1" "c1" = some ⟨"new", "t1", "r0"⟩ := by
  refine ⟨by decide, ?_⟩
  exact (summary_write_timestamps (fun ch => if ch = "c1" then some ⟨"old", "t0", "r0"⟩ else none)
    "c1" "new" "t1" ⟨"old", "t0", "r0"⟩ (by decide)).1

/-! ### Cache lemmas -/

theorem trimQueue_zero (q : List String) : trimQueue 0 q = [] := by
  induction q with
  | nil => rfl
  | cons x t ih => simp [trimQueue, ih]

theorem mem_trimQueue (bound : Nat) (q : List String) (id : String)
    (h : id ∈ trimQueue bound q) : id ∈ q := by
  induction q with
  | nil => simp [trimQueue] at h
  | cons x t ih =>
    by_cases hb : bound < (x :: t).length
    · rw [trimQueue, if_pos hb] at h
      exact List.mem_cons_of_mem x (ih h)
    · rwa [trimQueue, if_neg hb] at h

theorem lru_peek_entry (c : LruCache) (id : String) (m : Msg)
    (h : lru_peek c id = some m) : (id, m) ∈ c.entries := by
  unfold lru_peek at h
  rcases hfind : c.entries.find? (fun e => decide (e.1 = id)) with _ | e
  · rw [hfind] at h; simp at h
  · rw [hfind] at h
    simp at h
    have hp := List.find?_some hfind
    have hmem := List.mem_of_find?_eq_some hfind
    simp at hp
    rw [← h, ← hp]
    simpa using hmem

/-- The index-and-store invariant preserved by every insertion: every indexed
id under a channel stems from an inserted message of that channel, and every
stored entry is an inserted message keyed by its own id. -/
theorem cache_insert_fold_inv :
    ∀ (l : List Msg) (mc : MessageCache) (msgs0 : List Msg),
      (∀ ch id, id ∈ mc.channel_index ch →
        ∃ m, m ∈ msgs0 ∧ m.id = id ∧ m.channel_id = ch) →
      (∀ e ∈ mc.cache.entries, e.2 ∈ msgs0 ∧ e.2.id = e.1) →
      (∀ ch id, id ∈ (l.foldl MessageCache.insert mc).channel_index ch →
        ∃ m, m ∈ msgs0 ++ l ∧ m.id = id ∧ m.channel_id = ch) ∧
      (∀ e ∈ (l.foldl MessageCache.insert mc).cache.entries, e.2 ∈ msgs0 ++ l ∧ e.2.id = e.1) := by
  intro l
  induction l with
  | nil =>
    intro mc msgs0 hidx hsto
    simp only [List.foldl_nil, List.append_nil]
    exact ⟨hidx, hsto⟩
  | cons a rest ih =>
    intro mc msgs0 hidx hsto
    have hidx2 : ∀ ch id, id ∈ (mc.insert a).channel_index ch →
        ∃ m, m ∈ msgs0 ++ [a] ∧ m.id = id ∧ m.channel_id = ch := by
      intro ch id hmem
      simp only [MessageCache.insert] at hmem
      by_cases hch : ch = a.channel_id
      · subst hch
        rw [if_pos rfl] at hmem
        have := mem_trimQueue _ _ _ hmem
        rcases List.mem_append.mp this with hold | hnew
        · rcases hidx _ id hold with ⟨m, hm, hmid, hmch⟩
          exact ⟨m, List.mem_append_left _ hm, hmid, hmch⟩
        · simp at hnew
          exact ⟨a, List.mem_append_right _ (by simp), hnew.symm, rfl⟩
      · rw [if_neg hch] at hmem
        rcases hidx ch id hmem with ⟨m, hm, hmid, hmch⟩
        exact ⟨m, List.mem_append_left _ hm, hmid, hmch⟩
    have hsto2 : ∀ e ∈ (mc.insert a).cache.entries, e.2 ∈ msgs0 ++ [a] ∧ e.2.id = e.1 := by
      intro e he
      simp only [MessageCache.insert, lru_put] at he
      have he2 := List.take_subset _ _ he
      rcases List.mem_cons.mp he2 with he3 | he3
      · subst he3; exact ⟨List.mem_append_right _ (by simp), rfl⟩
      · have he4 := List.mem_of_mem_filter he3
        rcases hsto e he4 with ⟨h1, h2⟩
        exact ⟨List.mem_append_left _ h1, h2⟩
    have := ih (mc.insert a) (msgs0 ++ [a]) hidx2 hsto2
    simpa using this

/-- Members of a channel history come from an indexed id resolved by a peek. -/
theorem history_mem_structure (mc : MessageCache) (B n : Nat) (m : Msg)
    (h : m ∈ mc.get_channel_history B n) :
    ∃ id, id ∈ mc.channel_index B ∧ lru_peek mc.cache id = some m := by
  unfold MessageCache.get_channel_history at h
  rw [List.mem_reverse] at h
  rcases List.mem_filterMap.mp h with ⟨id, hid, hpeek⟩
  refine ⟨id, ?_, hpeek⟩
  have := List.take_subset n _ hid
  rwa [List.mem_reverse] at this

/-! ### C9: cross-channel isolation of the cache -/

/-- C9 counterexample: the cache keys messages by id alone, so re-inserting an
id under another channel poisons the first channel's history: after inserting
id `"1"` into channel 100 and then id `"1"` into channel 200, the history of
channel 100 returns the channel-200 message. -/
theorem cache_isolation_counterexample :
    (((MessageCache.new 100).insert ⟨"1", 100, "a"⟩).insert
        ⟨"1", 200, "b"⟩).get_channel_history 100 10 = [⟨"1", 200, "b"⟩]
    ∧ (⟨"1", 200, "b"⟩ : Msg).channel_id ≠ 100 := by
  constructor
  · decide
  · decide

/-- C9 (amended): provided no message id is inserted under two different
channels (message ids are globally unique in the source's domain), every
message returned by `get_channel_history B n` after any sequence of inserts
was inserted into channel `B`; messages of other channels never appear. -/
theorem cache_channel_isolation (cap : Nat) (msgs : List Msg)
    (hconsist : ∀ m1 ∈ msgs, ∀ m2 ∈ msgs, m1.id = m2.id → m1.channel_id = m2.channel_id)
    (B n : Nat) :
    ∀ m ∈ (msgs.foldl MessageCache.insert (MessageCache.new cap)).get_channel_history B n,
      m ∈ msgs ∧ m.channel_id = B := by
  intro m hm
  have hinv := cache_insert_fold_inv msgs (MessageCache.new cap) []
    (by intro ch id h; simp [MessageCache.new] at h)
    (by intro e he; simp [MessageCache.new] at he)
  rcases history_mem_structure _ B n m hm with ⟨id, hid, hpeek⟩
  have hentry := lru_peek_entry _ _ _ hpeek
  rcases hinv.2 (id, m) hentry with ⟨hmem, hmid⟩
  rcases hinv.1 B id hid with ⟨m2, hm2, hm2id, hm2ch⟩
  simp at hmem hm2
  refine ⟨hmem, ?_⟩
  have := hconsist m hmem m2 hm2 (by rw [hmid, hm2id])
  rw [this, hm2ch]

/-- C9 witness: the amended isolation applied to a concrete two-channel
insertion sequence. -/
theorem cache_channel_isolation_witness :
    (∀ m1 ∈ [(⟨"1", 100, "a"⟩ : Msg), ⟨"2", 200, "b"⟩],
      ∀ m2 ∈ [(⟨"1", 100, "a"⟩ : Msg), ⟨"2", 200, "b"⟩],
        m1.id = m2.id → m1.channel_id = m2.channel_id)
    ∧ ((⟨"2", 200, "b"⟩ : Msg) ∈ [(⟨"1", 100, "a"⟩ : Msg), ⟨"2", 200, "b"⟩]
        ∧ (⟨"2", 200, "b"⟩ : Msg).channel_id = 200) := by
  refine ⟨by decide, ?_⟩
  exact cache_channel_isolation 100 [⟨"1", 100, "a"⟩, ⟨"2", 200, "b"⟩] (by decide) 200 10
    ⟨"2", 200, "b"⟩ (by decide)

/-! ### C10: zero-capacity construction -/

/-- C10: `MessageCache::new(0)` substitutes a primary LRU capacity of 100 while
keeping the stored capacity field at 0; hence the per-channel index bound is
0, every inserted id is trimmed from the index immediately, channel history is
empty after any insertion sequence, while `get` can still return a cached
message. -/
theorem cache_zero_capacity_semantics :
    ((MessageCache.new 0).cache.cap = 100 ∧ (MessageCache.new 0).capacity = 0)
    ∧ (∀ (msgs : List Msg) (ch n : Nat),
      (msgs.foldl MessageCache.insert (MessageCache.new 0)).get_channel_history ch n = [])
    ∧ ((MessageCache.new 0).insert ⟨"1", 100, "a"⟩).get "1" = some ⟨"1", 100, "a"⟩ := by
  refine ⟨⟨rfl, rfl⟩, ?_, by decide⟩
  have hempty : ∀ (msgs : List Msg) (mc : MessageCache), mc.capacity = 0 →
      (∀ ch, mc.channel_index ch = []) →
      ∀ ch, (msgs.foldl MessageCache.insert mc).channel_index ch = [] := by
    intro msgs
    induction msgs with
    | nil => intro mc _ hidx ch; simpa using hidx ch
    | cons a rest ih =>
      intro mc hcap hidx ch
      have hcap2 : (mc.insert a).capacity = 0 := hcap
      have hidx2 : ∀ ch2, (mc.insert a).channel_index ch2 = [] := by
        intro ch2
        simp only [MessageCache.insert]
        by_cases hch : ch2 = a.channel_id
        · rw [if_pos hch, hidx, hcap]
          simpa using trimQueue_zero [a.id]
        · rw [if_neg hch]; exact hidx ch2
      simpa using ih (mc.insert a) hcap2 hidx2 ch
  intro msgs ch n
  unfold MessageCache.get_channel_history
  rw [hempty msgs (MessageCache.new 0) rfl (by intro ch2; rfl) ch]
  simp

/-! ### C3: summarization trigger decision -/

/-- C3: `should_summarize_channel` triggers exactly as specified — with no
record, once the 24-hour message count reaches `initial_min_messages`; with a
record whose `refreshed_at` is more than `refresh_weeks` old, exactly when at
least one message is newer than `updated_at`; and otherwise exactly when the
new-message count reaches `trigger_new_messages`, or the summary is at least
`trigger_age_hours` old and the count reaches `trigger_min_new_messages`
(stated for parseable record timestamps and the positive trigger thresholds
the configuration uses). -/
theorem summarize_trigger_decision (pol : SummarizationPolicy) (db : DB) (now : Int)
    (channel_id : String)
    (ht1 : 1 ≤ pol.trigger_new_messages) (ht2 : 1 ≤ pol.trigger_min_new_messages) :
    (db.summaries channel_id = none →
      (should_summarize_channel pol db now channel_id = true ↔
        pol.initial_min_messages ≤
          count_channel_messages_since db channel_id (formatTs (now - 86400))))
    ∧ (∀ r u f, db.summaries channel_id = some r →
        parse_sqlite_utc r.updated_at = some u →
        parse_sqlite_utc r.refreshed_at = some f →
        ((pol.refresh_weeks * 604800 < now - f →
          (should_summarize_channel pol db now channel_id = true ↔
            1 ≤ count_channel_messages_since db channel_id r.updated_at))
        ∧ (¬ pol.refresh_weeks * 604800 < now - f →
          (should_summarize_channel pol db now channel_id = true ↔
            (pol.trigger_new_messages ≤ count_channel_messages_since db channel_id r.updated_at
              ∨ (pol.trigger_age_hours ≤ (now - u).tdiv 3600
                ∧ pol.trigger_min_new_messages ≤
                    count_channel_messages_since db channel_id r.updated_at)))))) := by
  constructor
  · intro h
    simp [should_summarize_channel, h]
  · intro r u f hr hu hf
    have hne : ¬ r.updated_at = "" := by
      intro h0
      rw [h0] at hu
      rw [show parse_sqlite_utc "" = none from rfl] at hu
      exact Option.noConfusion hu
    constructor
    · intro hdue
      simp only [should_summarize_channel, hr, hu, hf, if_neg hne]
      by_cases hc : 0 < count_channel_messages_since db channel_id r.updated_at
      · rw [if_pos (by simp [hdue, hc])]
        simp
        omega
      · rw [if_neg (by simp [hc])]
        have hc0 : count_channel_messages_since db channel_id r.updated_at = 0 := by omega
        simp [hc0]
        omega
    · intro hdue
      simp only [should_summarize_channel, hr, hu, hf, if_neg hne]
      rw [if_neg (by simp [hdue])]
      simp [decide_eq_true_eq]

/-- C3 witness: the decision applied to a concrete store — one channel with a
stale summary record and two newer messages triggers a refresh. -/
theorem summarize_trigger_decision_witness :
    (1 ≤ 150 ∧ 1 ≤ 20)
    ∧ (should_summarize_channel ⟨50, 150, 6, 20, 6⟩
        ⟨[⟨"hi", "u1", "2026-01-01 00:00:00", "c1", none⟩],
          (fun _ => none),
          (fun ch => if ch = "c1" then
            some ⟨"sum", "2025-10-01 00:00:00", "2025-10-01 00:00:00"⟩ else none)⟩
        1767225600 "c1" = true ↔
      1 ≤ count_channel_messages_since
        ⟨[⟨"hi", "u1", "2026-01-01 00:00:00", "c1", none⟩],
          (fun _ => none),
          (fun ch => if ch = "c1" then
            some ⟨"sum", "2025-10-01 00:00:00", "2025-10-01 00:00:00"⟩ else none)⟩
        "c1" "2025-10-01 00:00:00") := by
  refine ⟨⟨by decide, by decide⟩, ?_⟩
  exact ((summarize_trigger_decision ⟨50, 150, 6, 20, 6⟩
      ⟨[⟨"hi", "u1", "2026-01-01 00:00:00", "c1", none⟩],
        (fun _ => none),
        (fun ch => if ch = "c1" then
          some ⟨"sum", "2025-10-01 00:00:00", "2025-10-01 00:00:00"⟩ else none)⟩
      1767225600 "c1" (by decide) (by decide)).2
    ⟨"sum", "2025-10-01 00:00:00", "2025-10-01 00:00:00"⟩ 1759276800 1759276800
    (by decide) (by decide) (by decide)).1 (by decide)

/-! ### Merge lemmas -/

theorem mergeLoop_eq (limit : Nat) :
    ∀ (l : List MessageResult) (seen : List String) (merged : List MessageResult),
      merged.length < limit →
      mergeLoop limit seen merged l
        = merged ++ (dedupKeyed (l.filter
            (fun m => ¬ message_dedupe_key m ∈ seen))).take (limit - merged.length) := by
  intro l
  induction l with
  | nil =>
    intro seen merged _
    simp [mergeLoop, dedupKeyed]
  | cons m rest ih =>
    intro seen merged hlt
    by_cases hseen : message_dedupe_key m ∈ seen
    · rw [mergeLoop, if_pos hseen, List.filter_cons_of_neg (by simpa using hseen)]
      exact ih seen merged hlt
    · rw [mergeLoop, if_neg hseen, List.filter_cons_of_pos (by simpa using hseen), dedupKeyed]
      obtain ⟨k, hk⟩ : ∃ k, limit - merged.length = k + 1 :=
        ⟨limit - merged.length - 1, by omega⟩
      rw [hk, List.take_succ_cons]
      by_cases hfull : limit ≤ (merged ++ [m]).length
      · rw [if_pos hfull]
        have hk0 : k = 0 := by simp at hfull; omega
        subst hk0
        simp
      · rw [if_neg hfull]
        rw [ih (message_dedupe_key m :: seen) (merged ++ [m])
          (by simp only [List.length_append, List.length_cons, List.length_nil] at hfull ⊢; omega)]
        have hfilter :
            rest.filter (fun y => ¬ message_dedupe_key y ∈ (message_dedupe_key m :: seen))
              = (rest.filter (fun y => ¬ message_dedupe_key y ∈ seen)).filter
                  (fun y => ¬ (message_dedupe_key y = message_dedupe_key m)) := by
          rw [List.filter_filter]
          apply List.filter_congr
          intro y _
          simp only [List.mem_cons, decide_not, Bool.not_eq_true']
          by_cases h1 : message_dedupe_key y = message_dedupe_key m <;>
            by_cases h2 : message_dedupe_key y ∈ seen <;> simp [h1, h2]
        rw [hfilter]
        have hlen : limit - (merged ++ [m]).length = k := by
          simp only [List.length_append, List.length_cons, List.length_nil]
          omega
        rw [hlen]
        simp

theorem merge_results_eq (primary secondary : List MessageResult) (limit : Nat)
    (h : 1 ≤ limit) :
    merge_results primary secondary limit = (dedupKeyed (primary ++ secondary)).take limit := by
  rw [merge_results, mergeLoop_eq limit _ [] [] (by simpa using h)]
  have hfilter : (primary ++ secondary).filter
      (fun m => ¬ message_dedupe_key m ∈ ([] : List String)) = primary ++ secondary := by
    apply List.filter_eq_self.mpr
    intro a _
    simp
  rw [hfilter]
  simp

/-! ### Effective-limit lemmas -/

theorem effLimit_pos (l : Nat) : 1 ≤ effLimit l := by
  unfold effLimit
  split
  · omega
  · omega

theorem effLimit_le_100 (l : Nat) : effLimit l ≤ 100 := by
  unfold effLimit
  split
  · omega
  · exact min_le_right _ _

theorem effLimit_idem (l : Nat) : effLimit (effLimit l) = effLimit l := by
  unfold effLimit
  by_cases h : l = 0
  · simp [h]
  · have h1 : ¬ (min l 100 = 0) := by omega
    simp [h, h1]

/-! ### C5: keyword-only search -/

/-- C5 counterexample: SQLite `LIKE` is ASCII-case-insensitive, so with an
empty query embedding the keyword search returns a message whose content
(`"HELLO"`) does not contain the query text (`"hello"`) as a substring,
contradicting the claim's description of the returned set. -/
theorem keyword_substring_counterexample :
    search_messages
        ⟨[⟨"HELLO", "u1", "2026-01-01 00:00:00", "c1", none⟩], (fun _ => none), (fun _ => none)⟩
        0 "hello" [] ⟨[], none, none, 10⟩
      = [⟨"HELLO", "u1", "2026-01-01 00:00:00", "c1"⟩]
    ∧ ¬ specContainsSubstring "hello" "HELLO" := by
  constructor
  · decide
  · unfold specContainsSubstring
    decide

/-- C5 (amended): with an empty query embedding, `search_messages` routes to
the keyword path, whose results are exactly the stored messages matching the
assembled `WHERE` clause — SQLite-`LIKE` match of the query against the
content (ASCII-case-insensitive, `%`/`_` wildcards) rather than literal
substring containment, channel scope (not disabled, not before
`memory_start_date`), the allow-list and date bounds when given — ordered
newest-first and truncated to the effective limit (5 when the filter limit is
0, at most 100 otherwise). -/
theorem keyword_search_characterization (db : DB) (now : Int) (query : String)
    (filter : SearchFilter) :
    search_messages db now query [] filter
        = search_messages_keyword db query { filter with limit := effLimit filter.limit }
    ∧ (∀ r ∈ search_messages db now query [] filter,
        ∃ m, m ∈ db.messages ∧ toResult m = r ∧
          keyword_where db.settings query { filter with limit := effLimit filter.limit } m = true)
    ∧ ((db.messages.filter
          (keyword_where db.settings query { filter with limit := effLimit filter.limit })).length
            ≤ effLimit filter.limit →
        ∀ m ∈ db.messages,
          keyword_where db.settings query { filter with limit := effLimit filter.limit } m = true →
          toResult m ∈ search_messages db now query [] filter)
    ∧ List.Pairwise (fun a b : MessageResult => b.timestamp.data ≤ a.timestamp.data)
        (search_messages db now query [] filter)
    ∧ (search_messages db now query [] filter).length ≤ effLimit filter.limit
    ∧ 1 ≤ effLimit filter.limit ∧ effLimit filter.limit ≤ 100
    ∧ (filter.limit = 0 → effLimit filter.limit = 5) := by
  have hroute : search_messages db now query [] filter
      = search_messages_keyword db query { filter with limit := effLimit filter.limit } := by
    simp [search_messages]
  set f2 : SearchFilter := { filter with limit := effLimit filter.limit } with hf2
  have hlim2 : effLimit f2.limit = effLimit filter.limit := by
    rw [hf2]; exact effLimit_idem filter.limit
  have hperm := List.perm_insertionSort ts_desc
    (db.messages.filter (keyword_where db.settings query f2))
  refine ⟨hroute, ?_, ?_, ?_, ?_, effLimit_pos _, effLimit_le_100 _, ?_⟩
  · intro r hr
    rw [hroute] at hr
    unfold search_messages_keyword at hr
    rcases List.mem_map.mp hr with ⟨row, hrow, hres⟩
    have hrow2 := List.take_subset _ _ hrow
    have hrow3 := hperm.mem_iff.mp hrow2
    rcases List.mem_filter.mp hrow3 with ⟨hmem, hpred⟩
    exact ⟨row, hmem, hres, hpred⟩
  · intro hcount m hm hpred
    rw [hroute]
    unfold search_messages_keyword
    have hmem : m ∈ db.messages.filter (keyword_where db.settings query f2) :=
      List.mem_filter.mpr ⟨hm, hpred⟩
    have hmem2 := hperm.mem_iff.mpr hmem
    have hlen : ((db.messages.filter (keyword_where db.settings query f2)).insertionSort
        ts_desc).length ≤ effLimit f2.limit := by
      rw [hperm.length_eq, hlim2]
      exact hcount
    rw [List.take_of_length_le hlen]
    exact List.mem_map.mpr ⟨m, hmem2, rfl⟩
  · rw [hroute]
    unfold search_messages_keyword
    rw [List.pairwise_map]
    have hsorted : List.Sorted ts_desc
        ((db.messages.filter (keyword_where db.settings query f2)).insertionSort ts_desc) :=
      List.sorted_insertionSort ts_desc _
    have htake := hsorted.sublist (List.take_sublist (effLimit f2.limit) _)
    exact htake
  · rw [hroute]
    unfold search_messages_keyword
    rw [List.length_map, hlim2.symm]
    exact List.length_take_le _ _
  · intro h0
    simp [effLimit, h0]

/-- C5 witness: the characterization applied to a concrete store — the scoped
channels behave as claimed: a disabled channel's message and a message before
the scope start are excluded, an in-scope match is returned. -/
theorem keyword_search_characterization_witness :
    search_messages
        ⟨[⟨"hit one", "u1", "2026-01-02 00:00:00", "c1", none⟩,
          ⟨"hit two", "u1", "2026-01-02 00:00:00", "c2", none⟩,
          ⟨"hit three", "u1", "2025-01-01 00:00:00", "c3", none⟩],
          (fun ch => if ch = "c2" then some ⟨false, none⟩
            else if ch = "c3" then some ⟨true, some "2026-01-01 00:00:00"⟩ else none),
          (fun _ => none)⟩
        0 "hit" [] ⟨[], none, none, 10⟩
      = search_messages_keyword
        ⟨[⟨"hit one", "u1", "2026-01-02 00:00:00", "c1", none⟩,
          ⟨"hit two", "u1", "2026-01-02 00:00:00", "c2", none⟩,
          ⟨"hit three", "u1", "2025-01-01 00:00:00", "c3", none⟩],
          (fun ch => if ch = "c2" then some ⟨false, none⟩
            else if ch = "c3" then some ⟨true, some "2026-01-01 00:00:00"⟩ else none),
          (fun _ => none)⟩
        "hit" ⟨[], none, none, 10⟩
    ∧ search_messages
        ⟨[⟨"hit one", "u1", "2026-01-02 00:00:00", "c1", none⟩,
          ⟨"hit two", "u1", "2026-01-02 00:00:00", "c2", none⟩,
          ⟨"hit three", "u1", "2025-01-01 00:00:00", "c3", none⟩],
          (fun ch => if ch = "c2" then some ⟨false, none⟩
            else if ch = "c3" then some ⟨true, some "2026-01-01 00:00:00"⟩ else none),
          (fun _ => none)⟩
        0 "hit" [] ⟨[], none, none, 10⟩
      = [⟨"hit one", "u1", "2026-01-02 00:00:00", "c1"⟩] := by
  constructor
  · exact (keyword_search_characterization _ 0 "hit" _).1
  · decide

/-! ### C6: search never fails because of embeddings -/

/-- C6: the search degrades gracefully — an empty query embedding routes to
keyword-only search, a zero-norm embedding makes the vector path contribute
nothing (the result is the deduplicated keyword list), and a stored blob whose
length is not 4 × the query dimensionality scores 0 instead of aborting (all
paths of the model are total functions). -/
theorem search_embedding_robustness :
    (∀ (db : DB) (now : Int) (query : String) (filter : SearchFilter),
      search_messages db now query [] filter
        = search_messages_keyword db query { filter with limit := effLimit filter.limit })
    ∧ (∀ (db : DB) (now : Int) (query : String) (embedding : List ℚ) (filter : SearchFilter),
        embedding ≠ [] → fsqrt (sumSq embedding) = 0 →
        search_messages_vector db embedding now { filter with limit := effLimit filter.limit } = []
        ∧ search_messages db now query embedding filter
            = (dedupKeyed (if trimS query = "" then ([] : List MessageResult)
                else search_messages_keyword db query
                  { filter with limit := effLimit filter.limit })).take (effLimit filter.limit))
    ∧ (∀ (query : List ℚ) (query_norm : ℚ) (blob : List Nat),
        blob.length ≠ 4 * query.length →
        cosine_similarity_bytes query query_norm blob = 0) := by
  refine ⟨?_, ?_, ?_⟩
  · intro db now query filter
    simp [search_messages]
  · intro db now query embedding filter hne hnorm
    have hvec : search_messages_vector db embedding now
        { filter with limit := effLimit filter.limit } = [] := by
      simp [search_messages_vector, hnorm]
    refine ⟨hvec, ?_⟩
    rw [search_messages]
    rw [if_neg hne]
    rw [hvec]
    rw [merge_results_eq _ _ _ (effLimit_pos _)]
    simp
  · intro query query_norm blob hlen
    unfold cosine_similarity_bytes
    split
    · rfl
    · simp [hlen]

/-- C6 witness: the robustness theorem applied at a zero vector and a
mismatched three-byte blob. -/
theorem search_embedding_robustness_witness :
    (([ (0 : ℚ) ] ≠ []) ∧ fsqrt (sumSq [(0 : ℚ)]) = 0 ∧ (3 ≠ 4 * 1))
    ∧ search_messages_vector ⟨[], (fun _ => none), (fun _ => none)⟩ [(0 : ℚ)] 0
        { channels := [], from_date := none, to_date := none, limit := effLimit 5 } = []
    ∧ cosine_similarity_bytes [(1 : ℚ)] 1 [0, 0, 0] = 0 := by
  have hz : fsqrt (sumSq [(0 : ℚ)]) = 0 := by
    norm_num [sumSq, fsqrt, Int.sqrt]
  refine ⟨⟨by simp, hz, by norm_num⟩, ?_, ?_⟩
  · exact (search_embedding_robustness.2.1 ⟨[], (fun _ => none), (fun _ => none)⟩ 0 "q"
      [(0 : ℚ)] ⟨[], none, none, 5⟩ (by simp) hz).1
  · exact search_embedding_robustness.2.2 [(1 : ℚ)] 1 [0, 0, 0] (by norm_num)

/-! ### Concrete vectors and evaluation lemmas for the vector path -/

/-- The serialized blob of the vector `[1.0, 0.0, 0.0]` (little-endian
binary32: `1.0f32 = 0x3F800000`). -/
def blobX : List Nat := [0, 0, 128, 63, 0, 0, 0, 0, 0, 0, 0, 0]

theorem fsqrt_one : fsqrt 1 = 1 := by
  have h1 : (1 : ℚ).num = 1 := rfl
  have h2 : (1 : ℚ).den = 1 := rfl
  rw [fsqrt, h1, h2, Nat.sqrt_one]
  norm_num [Int.sqrt]

theorem decodeF32List_blobX : decodeF32List blobX = [1, 0, 0] := by
  show decodeF32List [0, 0, 128, 63, 0, 0, 0, 0, 0, 0, 0, 0] = [1, 0, 0]
  norm_num [decodeF32List, decodeF32]

theorem sumSq_unitX : sumSq [(1 : ℚ), 0, 0] = 1 := by
  norm_num [sumSq]

theorem fsqrt_sumSq_unitX : fsqrt (sumSq [(1 : ℚ), 0, 0]) = 1 := by
  rw [sumSq_unitX, fsqrt_one]

theorem cosine_unitX_blobX : cosine_similarity_bytes [(1 : ℚ), 0, 0] 1 blobX = 1 := by
  unfold cosine_similarity_bytes
  rw [if_neg (by simp)]
  rw [if_neg (by norm_num [blobX])]
  rw [decodeF32List_blobX]
  simp only [sumSq_unitX, fsqrt_one]
  rw [if_neg (by norm_num)]
  norm_num [dotQ]

/-- Two messages with identical stored embeddings (`[1,0,0]`), 10 days apart. -/
def msgNewer : MsgRow := ⟨"newer", "u1", "2026-01-01 00:00:00", "c1", some blobX⟩

def msgOlder : MsgRow := ⟨"older", "u1", "2025-12-22 00:00:00", "c1", some blobX⟩

def dbRecency : DB := ⟨[msgNewer, msgOlder], (fun _ => none), (fun _ => none)⟩

theorem recency_boost_newer : recency_boost "2026-01-01 00:00:00" 1767225600 = 21 / 20 := by
  simp only [recency_boost, show parse_sqlite_utc "2026-01-01 00:00:00" = some 1767225600 from
    by decide]
  norm_num

theorem recency_boost_older : recency_boost "2025-12-22 00:00:00" 1767225600 = 31 / 30 := by
  simp only [recency_boost, show parse_sqlite_utc "2025-12-22 00:00:00" = some 1766361600 from
    by decide]
  norm_num

theorem scoreCandidate_newer :
    scoreCandidate [(1 : ℚ), 0, 0] 1 1767225600 msgNewer = 21 / 20 := by
  simp only [scoreCandidate, show msgNewer.embedding.getD [] = blobX from rfl,
    cosine_unitX_blobX, show msgNewer.timestamp = "2026-01-01 00:00:00" from rfl,
    recency_boost_newer]
  norm_num

theorem scoreCandidate_older :
    scoreCandidate [(1 : ℚ), 0, 0] 1 1767225600 msgOlder = 31 / 30 := by
  simp only [scoreCandidate, show msgOlder.embedding.getD [] = blobX from rfl,
    cosine_unitX_blobX, show msgOlder.timestamp = "2025-12-22 00:00:00" from rfl,
    recency_boost_older]
  norm_num

theorem vector_pipeline_recency :
    search_messages_vector dbRecency [(1 : ℚ), 0, 0] 1767225600 ⟨[], none, none, 2⟩
      = [toResult msgNewer, toResult msgOlder] := by
  have hcand : vector_candidates dbRecency ⟨[], none, none, 2⟩ = [msgNewer, msgOlder] := by
    decide
  unfold search_messages_vector
  rw [if_neg (by rw [fsqrt_sumSq_unitX]; norm_num)]
  unfold vectorScored
  rw [hcand, fsqrt_sumSq_unitX]
  rw [List.map_cons, List.map_cons, List.map_nil]
  rw [scoreCandidate_newer, scoreCandidate_older]
  rw [show List.insertionSort score_desc [((21 : ℚ) / 20, msgNewer), ((31 : ℚ) / 30, msgOlder)]
      = [((21 : ℚ) / 20, msgNewer), ((31 : ℚ) / 30, msgOlder)] from by
    norm_num [List.insertionSort, List.orderedInsert, score_desc]]
  norm_num [effLimit]

/-! ### C4: recency-boosted vector scoring -/

/-- C4: in the vector path, a candidate with positive cosine similarity `s`
receives final score `s · (1 + (1/20)·(1 − age_days/30))` when its age is
under 30 days and `s` otherwise; the returned list is the projection of the
scored candidates sorted by descending final score and truncated to the
limit; and of two messages with identical stored embeddings 10 days apart,
queried with that embedding, the newer one is returned first. -/
theorem vector_recency_scoring :
    (∀ (timestamp : String) (now t : Int), parse_sqlite_utc timestamp = some t →
      recency_boost timestamp now
        = (if ((max (now - t) 0 : Int) : ℚ) / 86400 < 30
            then 1 + (1 / 20) * (1 - ((max (now - t) 0 : Int) : ℚ) / 86400 / 30) else 1))
    ∧ (∀ (query : List ℚ) (query_norm : ℚ) (now : Int) (m : MsgRow) (s : ℚ),
        cosine_similarity_bytes query query_norm (m.embedding.getD []) = s → 0 < s →
        scoreCandidate query query_norm now m = s * recency_boost m.timestamp now)
    ∧ (∀ (db : DB) (query : List ℚ) (now : Int) (filter : SearchFilter),
        ¬ fsqrt (sumSq query) = 0 →
        search_messages_vector db query now filter
          = (((vectorScored db query now filter).insertionSort score_desc).take
              (effLimit filter.limit)).map (fun p => toResult p.2)
        ∧ List.Sorted score_desc ((vectorScored db query now filter).insertionSort score_desc))
    ∧ search_messages_vector dbRecency [(1 : ℚ), 0, 0] 1767225600 ⟨[], none, none, 2⟩
        = [toResult msgNewer, toResult msgOlder] := by
  refine ⟨?_, ?_, ?_, vector_pipeline_recency⟩
  · intro timestamp now t h
    simp only [recency_boost, h]
    by_cases hage : (30 : ℚ) ≤ ((max (now - t) 0 : Int) : ℚ) / 86400
    · rw [if_pos hage, if_neg (not_lt.mpr hage)]
    · rw [if_neg hage, if_pos (lt_of_not_ge hage)]
  · intro query query_norm now m s hcos hs
    simp only [scoreCandidate, hcos]
    rw [if_neg (not_lt.mpr hs.le), if_pos hs]
  · intro db query now filter h
    constructor
    · unfold search_messages_vector
      rw [if_neg h]
    · exact List.sorted_insertionSort score_desc _

/-- C4 witness: the boost formula, the positive-score multiplication and the
pipeline shape applied at concrete inputs. -/
theorem vector_recency_scoring_witness :
    (parse_sqlite_utc "2026-01-01 00:00:00" = some 1767225600
      ∧ recency_boost "2026-01-01 00:00:00" 1767225600
          = (if ((max ((1767225600 : Int) - 1767225600) 0 : Int) : ℚ) / 86400 < 30
              then 1 + (1 / 20) *
                (1 - ((max ((1767225600 : Int) - 1767225600) 0 : Int) : ℚ) / 86400 / 30)
              else 1))
    ∧ (0 < (1 : ℚ)
      ∧ scoreCandidate [(1 : ℚ), 0, 0] 1 1767225600 msgNewer
          = 1 * recency_boost msgNewer.timestamp 1767225600)
    ∧ (¬ fsqrt (sumSq [(1 : ℚ), 0, 0]) = 0
      ∧ List.Sorted score_desc
          ((vectorScored dbRecency [(1 : ℚ), 0, 0] 1767225600
            ⟨[], none, none, 2⟩).insertionSort score_desc)) := by
  refine ⟨⟨by decide, ?_⟩, ⟨by norm_num, ?_⟩, ⟨?_, ?_⟩⟩
  · exact vector_recency_scoring.1 "2026-01-01 00:00:00" 1767225600 1767225600 (by decide)
  · exact vector_recency_scoring.2.1 [(1 : ℚ), 0, 0] 1 1767225600 msgNewer 1
      (by rw [show msgNewer.embedding.getD [] = blobX from rfl]; exact cosine_unitX_blobX)
      (by norm_num)
  · rw [fsqrt_sumSq_unitX]; norm_num
  · exact (vector_recency_scoring.2.2.1 dbRecency [(1 : ℚ), 0, 0] 1767225600
      ⟨[], none, none, 2⟩ (by rw [fsqrt_sumSq_unitX]; norm_num)).2

/-! ### Concrete hybrid-search instance -/

/-- A message only vector search can find (embedded, no keyword match). -/
def msgAlpha : MsgRow := ⟨"alpha", "u1", "2026-01-01 00:00:00", "c1", some blobX⟩

/-- A message only keyword search can find (keyword match, no embedding). -/
def msgHello : MsgRow := ⟨"hello world", "u1", "2025-12-31 00:00:00", "c1", none⟩

def dbHybrid : DB := ⟨[msgAlpha, msgHello], (fun _ => none), (fun _ => none)⟩

theorem scoreCandidate_alpha :
    scoreCandidate [(1 : ℚ), 0, 0] 1 1767225600 msgAlpha = 21 / 20 := by
  simp only [scoreCandidate, show msgAlpha.embedding.getD [] = blobX from rfl,
    cosine_unitX_blobX, show msgAlpha.timestamp = "2026-01-01 00:00:00" from rfl,
    recency_boost_newer]
  norm_num

theorem vector_pipeline_hybrid :
    search_messages_vector dbHybrid [(1 : ℚ), 0, 0] 1767225600 ⟨[], none, none, 5⟩
      = [toResult msgAlpha] := by
  have hcand : vector_candidates dbHybrid ⟨[], none, none, 5⟩ = [msgAlpha] := by
    decide
  unfold search_messages_vector
  rw [if_neg (by rw [fsqrt_sumSq_unitX]; norm_num)]
  unfold vectorScored
  rw [hcand, fsqrt_sumSq_unitX]
  rw [List.map_cons, List.map_nil]
  rw [scoreCandidate_alpha]
  rw [show List.insertionSort score_desc [((21 : ℚ) / 20, msgAlpha)]
      = [((21 : ℚ) / 20, msgAlpha)] from by
    norm_num [List.insertionSort, List.orderedInsert]]
  norm_num [effLimit]

theorem keyword_pipeline_hybrid :
    search_messages_keyword dbHybrid "hello" ⟨[], none, none, 5⟩ = [toResult msgHello] := by
  decide

/-! ### C2: dedup-merge of the hybrid search -/

/-- C2: with a non-empty query embedding, the returned list is the
concatenation of vector results followed by keyword results, deduplicated by
the composite key keeping the first-seen (vector-side) occurrence and
truncated to the effective limit; concretely, a message matched only by
vector similarity and a different message matched only by keyword both appear
in the merged result. -/
theorem hybrid_merge_semantics :
    (∀ (db : DB) (now : Int) (query : String) (embedding : List ℚ) (filter : SearchFilter),
      embedding ≠ [] →
      search_messages db now query embedding filter
        = (dedupKeyed
            (search_messages_vector db embedding now { filter with limit := effLimit filter.limit }
              ++ (if trimS query = "" then ([] : List MessageResult)
                  else search_messages_keyword db query
                    { filter with limit := effLimit filter.limit }))).take (effLimit filter.limit))
    ∧ search_messages_vector dbHybrid [(1 : ℚ), 0, 0] 1767225600 ⟨[], none, none, 5⟩
        = [toResult msgAlpha]
    ∧ search_messages_keyword dbHybrid "hello" ⟨[], none, none, 5⟩ = [toResult msgHello]
    ∧ search_messages dbHybrid 1767225600 "hello" [(1 : ℚ), 0, 0] ⟨[], none, none, 5⟩
        = [toResult msgAlpha, toResult msgHello] := by
  refine ⟨?_, vector_pipeline_hybrid, keyword_pipeline_hybrid, ?_⟩
  · intro db now query embedding filter hne
    simp only [search_messages]
    rw [if_neg hne]
    exact merge_results_eq _ _ _ (effLimit_pos _)
  · simp only [search_messages]
    rw [if_neg (by simp)]
    rw [show ({ (⟨[], none, none, 5⟩ : SearchFilter) with limit := effLimit 5 } : SearchFilter)
        = ⟨[], none, none, 5⟩ from rfl]
    rw [vector_pipeline_hybrid]
    rw [if_neg (by decide)]
    rw [keyword_pipeline_hybrid]
    decide

/-- C2 witness: the merge equality applied at the concrete hybrid store. -/
theorem hybrid_merge_semantics_witness :
    ([(1 : ℚ), 0, 0] ≠ ([] : List ℚ))
    ∧ search_messages dbHybrid 1767225600 "hello" [(1 : ℚ), 0, 0] ⟨[], none, none, 5⟩
        = (dedupKeyed
            (search_messages_vector dbHybrid [(1 : ℚ), 0, 0] 1767225600
                { (⟨[], none, none, 5⟩ : SearchFilter) with limit := effLimit 5 }
              ++ (if trimS "hello" = "" then ([] : List MessageResult)
                  else search_messages_keyword dbHybrid "hello"
                    { (⟨[], none, none, 5⟩ : SearchFilter) with limit := effLimit 5 }))).take
            (effLimit 5) := by
  refine ⟨by simp, ?_⟩
  exact hybrid_merge_semantics.1 dbHybrid 1767225600 "hello" [(1 : ℚ), 0, 0]
    ⟨[], none, none, 5⟩ (by simp)
